import Mathlib

/-!
Shallow embedding of the two C command-line tools of TritonDataCenter/sdc-napi:

  * `src/tools/data/ip_iter.c` — the Range Walker: prints every IPv4 address of an
    inclusive range, one per line;
  * `src/tools/data/ip_sub.c`  — the Subnet Enumerator: prints `count` consecutive
    subnets of a given prefix length starting from a base address, each line showing
    the subnet base, base+1 and base+2.

Machine integers are modelled as `Nat` with explicit reduction `% 2^32` wherever the
C code performs 32-bit (or two's-complement `int`) arithmetic.  The C `for` loop of
`ip_iter` is modelled with explicit fuel, because its loop counter `cur` is a
`uint32_t` and the loop genuinely fails to terminate when `last = 2^32 - 1`.
Standard-error text is not modelled; a program run is a pair of the exit status and
the list of lines written to standard output.
-/

/-- `2^32`, the size of the IPv4 address space. -/
def W32 : Nat := 4294967296

/-- Dotted-decimal rendering of a 32-bit value, most significant byte first.
This is what `inet_ntop(AF_INET, ...)` produces for the network-byte-order word
`htonl v`. -/
def fmtIPv4 (v : Nat) : String :=
  Nat.repr (v / 16777216 % 256) ++ "." ++ Nat.repr (v / 65536 % 256) ++ "." ++
    Nat.repr (v / 256 % 256) ++ "." ++ Nat.repr (v % 256)

/-- Modelled from libc semantics: `inet_ntop(AF_INET, &addr, buf, size)` writes the
dotted-decimal form of the address into a buffer of `size` bytes and returns `NULL`
(here `none`) exactly when the text plus its terminating NUL byte does not fit.
The stored word is reduced modulo `2^32` (it is a 32-bit register). -/
def inet_ntop4 (v size : Nat) : Option String :=
  let s := fmtIPv4 (v % W32)
  if s.length < size then some s else none

/-- The `for (cur = first; cur <= last; cur++)` loop of `ip_iter.c` (lines 51-61).
`cur` is a `uint32_t`, so the increment wraps modulo `2^32`.  The loop body formats
`cur` into a buffer of `INET6_ADDRSTRLEN = 46` bytes and `puts` it; a formatting
failure returns exit status 1.  `fuel` bounds the number of guard evaluations:
`none` means the run did not reach a terminal state within `fuel` steps. -/
def ipIterLoop : Nat → Nat → Nat → Option (Nat × List String)
  | 0, _, _ => none
  | fuel + 1, cur, last =>
    if cur ≤ last then
      match inet_ntop4 cur 46 with
      | none => some (1, [])
      | some buf =>
        match ipIterLoop fuel ((cur + 1) % W32) last with
        | none => none
        | some r => some (r.1, buf :: r.2)
    else
      some (0, [])

/-- `main` of `ip_iter.c` after both addresses parsed: `first` and `last` are the
host-order values of the two arguments.  If `first > last` the program prints a
diagnostic on standard error and exits 1 with no standard-output lines; otherwise
it runs the printing loop. -/
def ipIterRun (fuel first last : Nat) : Option (Nat × List String) :=
  if first > last then some (1, []) else ipIterLoop fuel first last

/-- The line printed for the `i`-th subnet by `ip_sub.c`: the subnet base
`base + i * size`, that value plus 1 and that value plus 2, every stored word
reduced modulo `2^32`, space-separated. -/
def subLine (size base i : Nat) : String :=
  fmtIPv4 ((base + i * size) % W32) ++ " " ++
    fmtIPv4 ((base + i * size + 1) % W32) ++ " " ++
    fmtIPv4 ((base + i * size + 2) % W32)

/-- The `for (i = 0; i < count; i++, subnet += 1 << (32 - bits))` loop of
`ip_sub.c` (lines 50-74), taking the number of remaining iterations (zero when
`count <= 0`).  `subnet` is a C `int`; its arithmetic is modelled as the
two's-complement bit pattern, a `Nat` reduced modulo `2^32`.  Each iteration
formats `subnet`, `subnet + 1` and `subnet + 2` into `INET_ADDRSTRLEN = 16` byte
buffers; any formatting failure stops the run with exit status 1, keeping the
lines already printed. -/
def ipSubLoop (size : Nat) : Nat → Nat → Nat × List String
  | 0, _ => (0, [])
  | n + 1, subnet =>
    match inet_ntop4 subnet 16 with
    | none => (1, [])
    | some buf =>
      match inet_ntop4 (subnet + 1) 16 with
      | none => (1, [])
      | some fi =>
        match inet_ntop4 (subnet + 2) 16 with
        | none => (1, [])
        | some la =>
          let r := ipSubLoop size n ((subnet + size) % W32)
          (r.1, (buf ++ " " ++ fi ++ " " ++ la) :: r.2)

/-- `main` of `ip_sub.c` after the base address parsed: `base` is the host-order
value of the first argument, `bits` and `count` the `atoi` values of the second
and third.  Mirrors the C control flow: reject `bits` outside `[8, 32)`; reject a
base whose bit at position `32 - bits` is set (`subnet & (1 << (32 - bits))`);
otherwise run the printing loop `count` times (zero times when `count <= 0`). -/
def ipSubRun (base : Nat) (bits count : Int) : Nat × List String :=
  if bits < 8 ∨ 32 ≤ bits then (1, [])
  else if base &&& 2 ^ (32 - bits.toNat) ≠ 0 then (1, [])
  else ipSubLoop (2 ^ (32 - bits.toNat)) count.toNat base

/-- Splits a character list at every dot, keeping empty groups, as the libc
dotted-decimal parser walks the string. -/
def splitDots : List Char → List (List Char)
  | [] => [[]]
  | c :: cs =>
    if c = '.' then [] :: splitDots cs
    else
      match splitDots cs with
      | g :: gs => (c :: g) :: gs
      | [] => [[c]]

/-- Modelled from libc semantics (`inet_pton4`): one octet is a non-empty run of
decimal digits with value at most 255 and no leading zero (a lone `0` is fine). -/
def octetVal (l : List Char) : Option Nat :=
  if l.isEmpty then none
  else if !l.all Char.isDigit then none
  else if l.head? = some '0' ∧ 1 < l.length then none
  else
    let v := l.foldl (fun a c => a * 10 + (c.toNat - 48)) 0
    if v ≤ 255 then some v else none

/-- Modelled from libc semantics: `inet_pton(AF_INET, s, &addr)` succeeds exactly
on four dot-separated octets, yielding the host-order (`ntohl`) 32-bit value. -/
def inet_pton4 (s : String) : Option Nat :=
  match splitDots s.toList with
  | [a, b, c, d] =>
    match octetVal a, octetVal b, octetVal c, octetVal d with
    | some va, some vb, some vc, some vd =>
      some (((va * 256 + vb) * 256 + vc) * 256 + vd)
    | _, _, _, _ => none
  | _ => none

/-- Accumulates the value of a leading run of decimal digits, stopping at the
first non-digit, as `atoi` does. -/
def atoiDigits : List Char → Nat → Nat
  | [], acc => acc
  | c :: cs, acc =>
    if c.isDigit then atoiDigits cs (acc * 10 + (c.toNat - 48)) else acc

/-- The six characters `isspace` accepts in the C locale. -/
def isSpaceChar (c : Char) : Bool :=
  c = ' ' || c = Char.ofNat 9 || c = Char.ofNat 10 || c = Char.ofNat 11 ||
    c = Char.ofNat 12 || c = Char.ofNat 13

/-- Modelled from C library semantics: `atoi` skips leading whitespace, accepts an
optional sign, converts the longest leading run of digits and ignores the rest of
the string; with no digits it returns 0.  (Its overflow behaviour is undefined in
C and is not modelled: the value is an unbounded `Int`.) -/
def atoi (s : String) : Int :=
  match s.toList.dropWhile (fun c => isSpaceChar c) with
  | '-' :: rest => -(atoiDigits rest 0 : Int)
  | '+' :: rest => (atoiDigits rest 0 : Int)
  | rest => (atoiDigits rest 0 : Int)

/-- `main` of `ip_sub.c` from the three textual arguments (the `argc == 4` case):
parse the base with `inet_pton`, `bits` and `count` with `atoi`, then proceed as
`ipSubRun`. -/
def ipSubMain (a1 a2 a3 : String) : Nat × List String :=
  match inet_pton4 a1 with
  | none => (1, [])
  | some base => ipSubRun base (atoi a2) (atoi a3)

set_option maxRecDepth 4096 in
/-- A decimal numeral of a value below 256 has at most three characters. -/
theorem repr_length_le (n : Nat) (h : n < 256) : (Nat.repr n).length ≤ 3 := by
  revert h
  revert n
  decide

/-- The dotted-decimal form of any stored word has at most 15 characters
(`255.255.255.255`). -/
theorem fmtIPv4_length (v : Nat) : (fmtIPv4 v).length ≤ 15 := by
  unfold fmtIPv4
  have h1 := repr_length_le (v / 16777216 % 256) (Nat.mod_lt _ (by norm_num))
  have h2 := repr_length_le (v / 65536 % 256) (Nat.mod_lt _ (by norm_num))
  have h3 := repr_length_le (v / 256 % 256) (Nat.mod_lt _ (by norm_num))
  have h4 := repr_length_le (v % 256) (Nat.mod_lt _ (by norm_num))
  simp only [String.length_append]
  have hdot : (".".length : Nat) = 1 := rfl
  omega

/-- A 16-byte buffer (`INET_ADDRSTRLEN`) always suffices: `inet_ntop` cannot
fail in `ip_sub.c`. -/
theorem inet_ntop4_sixteen (v : Nat) : inet_ntop4 v 16 = some (fmtIPv4 (v % W32)) := by
  unfold inet_ntop4
  rw [if_pos]
  exact Nat.lt_of_le_of_lt (fmtIPv4_length _) (by norm_num)

/-- A 46-byte buffer (`INET6_ADDRSTRLEN`) always suffices: `inet_ntop` cannot
fail in `ip_iter.c`. -/
theorem inet_ntop4_fortysix (v : Nat) : inet_ntop4 v 46 = some (fmtIPv4 (v % W32)) := by
  unfold inet_ntop4
  rw [if_pos]
  exact Nat.lt_of_le_of_lt (fmtIPv4_length _) (by norm_num)

/-- With `last = 2^32 - 1` the guard `cur <= last` holds for every `uint32_t`
value of `cur`, so the loop of `ip_iter.c` never reaches a terminal state. -/
theorem ipIterLoop_max_none :
    ∀ (fuel cur : Nat), cur < W32 → ipIterLoop fuel cur (W32 - 1) = none := by
  intro fuel
  induction fuel with
  | zero => intro cur _; rfl
  | succ n ih =>
    intro cur h
    unfold ipIterLoop
    rw [if_pos (by omega), inet_ntop4_fortysix, ih ((cur + 1) % W32) (Nat.mod_lt _ (by decide))]

/-- Characterization of the terminating runs of the `ip_iter.c` loop: starting at
`first` with `last = first + k` strictly below `2^32 - 1`, the loop finishes with
exit status 0 after printing the dotted-decimal forms of
`first, first + 1, …, first + k`. -/
theorem ipIterLoop_range :
    ∀ (k first : Nat), first + k + 1 < W32 →
      ipIterLoop (k + 2) first (first + k) =
        some (0, (List.range' first (k + 1)).map fmtIPv4) := by
  intro k
  induction k with
  | zero =>
    intro first h
    show ipIterLoop 2 first (first + 0) = _
    unfold ipIterLoop
    rw [if_pos (by omega), inet_ntop4_fortysix, Nat.mod_eq_of_lt (by omega : first < W32),
      Nat.mod_eq_of_lt (by omega : first + 1 < W32)]
    unfold ipIterLoop
    rw [if_neg (by omega)]
    rfl
  | succ k ih =>
    intro first h
    show ipIterLoop (k + 3) first (first + (k + 1)) = _
    unfold ipIterLoop
    rw [if_pos (by omega), inet_ntop4_fortysix, Nat.mod_eq_of_lt (by omega : first < W32),
      Nat.mod_eq_of_lt (by omega : first + 1 < W32)]
    have e : first + (k + 1) = (first + 1) + k := by omega
    rw [e, ih (first + 1) (by omega)]
    have e2 : List.range' first (k + 1 + 1) = first :: List.range' (first + 1) (k + 1) :=
      List.range'_succ first (k + 1) 1
    rw [e2]
    rfl

/-- Every terminating run of the `ip_iter.c` loop exits with status 0: the
formatting-failure branch that would return 1 is unreachable. -/
theorem ipIterLoop_code_zero :
    ∀ (fuel cur last c : Nat) (out : List String),
      ipIterLoop fuel cur last = some (c, out) → c = 0 := by
  intro fuel
  induction fuel with
  | zero => intro cur last c out h; exact absurd h (by simp [ipIterLoop])
  | succ n ih =>
    intro cur last c out h
    unfold ipIterLoop at h
    by_cases hg : cur ≤ last
    · rw [if_pos hg, inet_ntop4_fortysix] at h
      simp only at h
      cases hrec : ipIterLoop n ((cur + 1) % W32) last with
      | none => rw [hrec] at h; simp at h
      | some r =>
        rw [hrec] at h
        simp only [Option.some.injEq, Prod.mk.injEq] at h
        exact h.1 ▸ ih ((cur + 1) % W32) last r.1 r.2 (hrec.trans (by rfl))
    · rw [if_neg hg] at h
      simp only [Option.some.injEq, Prod.mk.injEq] at h
      omega

/-- Stepping the `subnet` accumulator by one subnet size and then taking the
`i`-th line is the same as taking the `i + 1`-st line from the original base. -/
theorem subLine_shift (size subnet i : Nat) :
    subLine size ((subnet + size) % W32) i = subLine size subnet (i + 1) := by
  have h1 : ((subnet + size) % W32 + i * size) % W32 = (subnet + (i + 1) * size) % W32 := by
    rw [Nat.succ_mul]
    simp only [W32]
    omega
  have h2 : ((subnet + size) % W32 + i * size + 1) % W32 =
      (subnet + (i + 1) * size + 1) % W32 := by
    rw [Nat.succ_mul]
    simp only [W32]
    omega
  have h3 : ((subnet + size) % W32 + i * size + 2) % W32 =
      (subnet + (i + 1) * size + 2) % W32 := by
    rw [Nat.succ_mul]
    simp only [W32]
    omega
  unfold subLine
  rw [h1, h2, h3]

/-- Characterization of the `ip_sub.c` loop: it always exits with status 0 and
prints, for `i = 0, …, n - 1`, the line of the `i`-th subnet. -/
theorem ipSubLoop_eq (size : Nat) :
    ∀ (n subnet : Nat),
      ipSubLoop size n subnet = (0, (List.range n).map (subLine size subnet)) := by
  intro n
  induction n with
  | zero => intro subnet; rfl
  | succ n ih =>
    intro subnet
    unfold ipSubLoop
    simp only [inet_ntop4_sixteen, ih ((subnet + size) % W32)]
    rw [List.range_succ_eq_map, List.map_cons, List.map_map]
    have hhead : subLine size subnet 0 =
        fmtIPv4 (subnet % W32) ++ " " ++ fmtIPv4 ((subnet + 1) % W32) ++ " " ++
          fmtIPv4 ((subnet + 2) % W32) := by
      simp [subLine]
    have htail : (List.range n).map (subLine size ((subnet + size) % W32)) =
        (List.range n).map (subLine size subnet ∘ Nat.succ) := by
      refine List.map_congr_left (fun i _ => ?_)
      simpa using subLine_shift size subnet i
    rw [hhead, htail]

/-- A valid `ip_sub.c` invocation (bits in range, base accepted by the
boundary-bit check) exits 0 and prints exactly the `count` subnet lines. -/
theorem ipSubRun_valid (base : Nat) (bits count : Int) (h8 : 8 ≤ bits) (h32 : bits < 32)
    (hal : base &&& 2 ^ (32 - bits.toNat) = 0) :
    ipSubRun base bits count =
      (0, (List.range count.toNat).map (subLine (2 ^ (32 - bits.toNat)) base)) := by
  unfold ipSubRun
  rw [if_neg (by omega), if_neg (not_not.mpr hal), ipSubLoop_eq]

/-- Indexing a mapped `range`. -/
theorem getElem?_map_range {α : Type} (f : Nat → α) (n i : Nat) (h : i < n) :
    ((List.range n).map f)[i]? = some (f i) := by
  rw [List.getElem?_map, List.getElem?_range h]
  rfl

/-- Claim C1 (amended: the end address must be below `255.255.255.255`, since at
`end = 2^32 - 1` the `uint32_t` loop counter wraps and the loop never exits): for
parsed values `start ≤ end` the Range Walker terminates with exit status 0 and
emits exactly `end - start + 1` lines, the dotted-decimal forms of the strictly
ascending values `start, start + 1, …, end`, the first line being `start` and the
last being `end`. -/
theorem C1_range_walker_enumerates (first last : Nat) (h1 : first ≤ last)
    (h2 : last + 1 < W32) :
    ipIterRun (last - first + 2) first last =
      some (0, (List.range' first (last - first + 1)).map fmtIPv4) ∧
    ((List.range' first (last - first + 1)).map fmtIPv4).length = last - first + 1 ∧
    ((List.range' first (last - first + 1)).map fmtIPv4).head? = some (fmtIPv4 first) ∧
    ((List.range' first (last - first + 1)).map fmtIPv4).getLast? = some (fmtIPv4 last) ∧
    (List.range' first (last - first + 1)).Pairwise (· < ·) := by
  refine ⟨?_, ?_, ?_, ?_, List.pairwise_lt_range' first (last - first + 1)⟩
  · unfold ipIterRun
    rw [if_neg (by omega)]
    have h := ipIterLoop_range (last - first) first (by omega)
    rw [(by omega : first + (last - first) = last)] at h
    exact h
  · rw [List.length_map, List.length_range']
  · rw [List.range'_succ, List.map_cons]
    rfl
  · rw [List.getLast?_map, List.getLast?_range']
    rw [if_neg (by omega)]
    have h : first + (last - first + 1) - 1 = last := by omega
    rw [h]
    rfl

/-- Witness for C1 at `start = 10.0.0.1`, `end = 10.0.0.3` (values 167772161 and
167772163). -/
theorem C1_witness :
    ((167772161 : Nat) ≤ 167772163 ∧ (167772163 : Nat) + 1 < W32) ∧
    (ipIterRun (167772163 - 167772161 + 2) 167772161 167772163 =
      some (0, (List.range' 167772161 (167772163 - 167772161 + 1)).map fmtIPv4) ∧
    ((List.range' 167772161 (167772163 - 167772161 + 1)).map fmtIPv4).length =
      167772163 - 167772161 + 1 ∧
    ((List.range' 167772161 (167772163 - 167772161 + 1)).map fmtIPv4).head? =
      some (fmtIPv4 167772161) ∧
    ((List.range' 167772161 (167772163 - 167772161 + 1)).map fmtIPv4).getLast? =
      some (fmtIPv4 167772163) ∧
    (List.range' 167772161 (167772163 - 167772161 + 1)).Pairwise (· < ·)) :=
  ⟨⟨by decide, by decide⟩, C1_range_walker_enumerates 167772161 167772163 (by decide) (by decide)⟩

/-- Counterexample to claim C1 as stated: for the syntactically valid pair
`start = 255.255.255.254`, `end = 255.255.255.255` (values `2^32 - 2 ≤ 2^32 - 1`)
the run never reaches a terminal state for any number of loop steps — the
`uint32_t` counter wraps past `end` — so it does not emit exactly
`end - start + 1 = 2` lines and stop. -/
theorem C1_counterexample :
    (∀ fuel, ipIterRun fuel 4294967294 4294967295 = none) ∧
      (4294967294 : Nat) ≤ 4294967295 := by
  refine ⟨fun fuel => ?_, by decide⟩
  unfold ipIterRun
  rw [if_neg (by decide), (by decide : (4294967295 : Nat) = W32 - 1)]
  exact ipIterLoop_max_none fuel 4294967294 (by decide)

/-- Claim C2 is what the code was meant to do, but `cur` is a `uint32_t`
(`ip_iter.c` line 25), not a wider counter: on `ip_iter 255.255.255.255
255.255.255.255` the guard `cur <= last` holds for every 32-bit `cur`, the
increment wraps from `2^32 - 1` to `0`, and the loop never terminates for any
number of steps. -/
theorem C2_loop_counter_not_wide_enough :
    (∀ fuel, ipIterRun fuel 4294967295 4294967295 = none) ∧ W32 - 1 = 4294967295 := by
  refine ⟨fun fuel => ?_, by decide⟩
  unfold ipIterRun
  rw [if_neg (by decide), (by decide : (4294967295 : Nat) = W32 - 1)]
  exact ipIterLoop_max_none fuel (W32 - 1) (by decide)

/-- Claim C7: a terminating run of the Range Walker on two parsed addresses exits
non-zero with no standard-output lines exactly when `start > end`. -/
theorem C7_invalid_range_iff (fuel first last code : Nat) (out : List String)
    (h : ipIterRun fuel first last = some (code, out)) :
    (code ≠ 0 ∧ out = []) ↔ last < first := by
  constructor
  · intro hc
    by_contra hno
    unfold ipIterRun at h
    rw [if_neg (by omega)] at h
    exact hc.1 (ipIterLoop_code_zero fuel first last code out h)
  · intro hlt
    unfold ipIterRun at h
    rw [if_pos (by omega)] at h
    simp only [Option.some.injEq, Prod.mk.injEq] at h
    exact ⟨by omega, h.2.symm⟩

/-- Witness for C7 at `start = 0.0.0.5`, `end = 0.0.0.3`. -/
theorem C7_witness : (ipIterRun 0 5 3 = some (1, [])) ∧
    (((1 : Nat) ≠ 0 ∧ ([] : List String) = []) ↔ 3 < 5) :=
  ⟨rfl, C7_invalid_range_iff 0 5 3 1 [] rfl⟩

/-- Claim C3: a valid Subnet Enumerator invocation exits 0 and emits exactly
`max(count, 0)` lines; the `i`-th line is the three space-separated dotted-decimal
addresses `base + i * 2^(32-bits)`, that value plus 1, and that value plus 2, in
that literal order (each stored in a 32-bit word, hence reduced modulo `2^32`). -/
theorem C3_subnet_enumerator_lines (base : Nat) (bits count : Int) (_hb : base < W32)
    (h8 : 8 ≤ bits) (h32 : bits < 32)
    (hal : base &&& 2 ^ (32 - bits.toNat) = 0) :
    ipSubRun base bits count =
      (0, (List.range count.toNat).map (subLine (2 ^ (32 - bits.toNat)) base)) ∧
    (ipSubRun base bits count).2.length = count.toNat ∧
    ((count.toNat : Int) = max count 0) ∧
    ∀ i, i < count.toNat →
      (ipSubRun base bits count).2[i]? =
        some (fmtIPv4 ((base + i * 2 ^ (32 - bits.toNat)) % W32) ++ " " ++
          fmtIPv4 ((base + i * 2 ^ (32 - bits.toNat) + 1) % W32) ++ " " ++
          fmtIPv4 ((base + i * 2 ^ (32 - bits.toNat) + 2) % W32)) := by
  have hrun := ipSubRun_valid base bits count h8 h32 hal
  refine ⟨hrun, ?_, Int.toNat_eq_max count, ?_⟩
  · rw [hrun]
    simp [List.length_map, List.length_range]
  · intro i hi
    rw [hrun]
    simpa [subLine] using
      getElem?_map_range (subLine (2 ^ (32 - bits.toNat)) base) count.toNat i hi

/-- Witness for C3 at `ip_sub 10.0.0.0 24 2` (base value 167772160). -/
theorem C3_witness :
    ((167772160 : Nat) < W32 ∧ 8 ≤ (24 : Int) ∧ (24 : Int) < 32 ∧
      167772160 &&& 2 ^ (32 - (24 : Int).toNat) = 0) ∧
    (ipSubRun 167772160 24 2 =
      (0, (List.range (2 : Int).toNat).map (subLine (2 ^ (32 - (24 : Int).toNat)) 167772160)) ∧
    (ipSubRun 167772160 24 2).2.length = (2 : Int).toNat ∧
    (((2 : Int).toNat : Int) = max 2 0) ∧
    ∀ i, i < (2 : Int).toNat →
      (ipSubRun 167772160 24 2).2[i]? =
        some (fmtIPv4 ((167772160 + i * 2 ^ (32 - (24 : Int).toNat)) % W32) ++ " " ++
          fmtIPv4 ((167772160 + i * 2 ^ (32 - (24 : Int).toNat) + 1) % W32) ++ " " ++
          fmtIPv4 ((167772160 + i * 2 ^ (32 - (24 : Int).toNat) + 2) % W32))) :=
  ⟨⟨by decide, by decide, by decide, by decide⟩,
    C3_subnet_enumerator_lines 167772160 24 2 (by decide) (by decide) (by decide) (by decide)⟩

/-- Claim C4: for a parsed base with bits in `[8, 32)`, the Subnet Enumerator
fails with no output exactly when the single bit of `base` at position
`32 - bits` is set — the check is `subnet & (1 << (32 - bits))`, never the full
subnet mask, so any lower bits may be set. -/
theorem C4_single_bit_alignment_check (base : Nat) (bits count : Int) (_hb : base < W32)
    (h8 : 8 ≤ bits) (h32 : bits < 32) :
    ((ipSubRun base bits count).1 ≠ 0 ∧ (ipSubRun base bits count).2 = []) ↔
      base &&& 2 ^ (32 - bits.toNat) ≠ 0 := by
  constructor
  · intro hc
    by_contra hal
    rw [ipSubRun_valid base bits count h8 h32 hal] at hc
    exact hc.1 rfl
  · intro hne
    unfold ipSubRun
    rw [if_neg (by omega), if_pos hne]
    exact ⟨Nat.one_ne_zero, rfl⟩

/-- Witness for C4 at `ip_sub 10.0.1.0 24 1` (base value 167772416, whose bit at
position 8 is set, so the run is rejected). -/
theorem C4_witness :
    ((167772416 : Nat) < W32 ∧ 8 ≤ (24 : Int) ∧ (24 : Int) < 32) ∧
    (((ipSubRun 167772416 24 1).1 ≠ 0 ∧ (ipSubRun 167772416 24 1).2 = []) ↔
      167772416 &&& 2 ^ (32 - (24 : Int).toNat) ≠ 0) :=
  ⟨⟨by decide, by decide, by decide⟩,
    C4_single_bit_alignment_check 167772416 24 1 (by decide) (by decide) (by decide)⟩

/-- Counterexample to claim C5 as stated: `ip_sub 10.0.0.1 24 1` does not fail —
`10.0.0.1` has value 167772161, whose bit at position 8 (value 256) is clear, so
the boundary-bit check accepts it and the program prints one line and exits 0. -/
theorem C5_counterexample :
    ipSubMain "10.0.0.1" "24" "1" = (0, ["10.0.0.1 10.0.0.2 10.0.0.3"]) := by decide

/-- Claim C5 amended: the invocation `ip_sub 10.0.0.1 24 1` succeeds, exiting 0
with the single output line `10.0.0.1 10.0.0.2 10.0.0.3`, because the alignment
check tests only the bit of value 256, which is clear in 167772161. -/
theorem C5_amended_accepts :
    ipSubRun 167772161 24 1 = (0, ["10.0.0.1 10.0.0.2 10.0.0.3"]) ∧
      167772161 &&& 2 ^ (32 - (24 : Int).toNat) = 0 := by decide

/-- Claim C6: no overflow guard — when `base + (count - 1) * 2^(32-bits)` exceeds
`2^32 - 1`, the Subnet Enumerator still exits 0 with all `max(count, 0)` lines,
every printed address value being reduced modulo `2^32`. -/
theorem C6_wraps_modulo_2_32 (base : Nat) (bits count : Int) (_hb : base < W32)
    (h8 : 8 ≤ bits) (h32 : bits < 32)
    (hal : base &&& 2 ^ (32 - bits.toNat) = 0)
    (_hov : W32 ≤ base + (count.toNat - 1) * 2 ^ (32 - bits.toNat)) :
    (ipSubRun base bits count).1 = 0 ∧
    (ipSubRun base bits count).2.length = count.toNat ∧
    ∀ i, i < count.toNat →
      (ipSubRun base bits count).2[i]? = some (subLine (2 ^ (32 - bits.toNat)) base i) := by
  have hrun := ipSubRun_valid base bits count h8 h32 hal
  refine ⟨by rw [hrun], ?_, ?_⟩
  · rw [hrun]
    simp [List.length_map, List.length_range]
  · intro i hi
    rw [hrun]
    exact getElem?_map_range _ count.toNat i hi

/-- Witness for C6 at `ip_sub 255.255.254.0 24 3` (base value 4294966784): the
third subnet base `4294966784 + 2 * 256 = 2^32` wraps to `0.0.0.0`. -/
theorem C6_witness :
    ((4294966784 : Nat) < W32 ∧ 8 ≤ (24 : Int) ∧ (24 : Int) < 32 ∧
      4294966784 &&& 2 ^ (32 - (24 : Int).toNat) = 0 ∧
      W32 ≤ 4294966784 + ((3 : Int).toNat - 1) * 2 ^ (32 - (24 : Int).toNat)) ∧
    ((ipSubRun 4294966784 24 3).1 = 0 ∧
    (ipSubRun 4294966784 24 3).2.length = (3 : Int).toNat ∧
    ∀ i, i < (3 : Int).toNat →
      (ipSubRun 4294966784 24 3).2[i]? =
        some (subLine (2 ^ (32 - (24 : Int).toNat)) 4294966784 i)) :=
  ⟨⟨by decide, by decide, by decide, by decide, by decide⟩,
    C6_wraps_modulo_2_32 4294966784 24 3 (by decide) (by decide) (by decide) (by decide)
      (by decide)⟩

/-- Counterexample to claim C8 as stated: with the count argument `xyz`, which is
not a parseable integer, `atoi` yields 0, so `ip_sub 10.0.0.0 24 xyz` prints no
lines but exits with status 0, not 1. -/
theorem C8_counterexample :
    ipSubMain "10.0.0.0" "24" "xyz" = (0, []) ∧ atoi "xyz" = 0 := by decide

/-- Claim C8 amended: a base address that fails to parse exits 1 with no output,
and an unparseable bits argument also exits 1 with no output (its `atoi` value 0
fails the `[8, 32)` range check); but the count argument cannot fail to parse —
`atoi` maps a non-numeric count to 0, so the process prints no subnet lines and
exits 0. -/
theorem C8_amended_parse_failures (s a2 a3 : String) (h : inet_pton4 s = none) :
    ipSubMain s a2 a3 = (1, []) ∧
    ipSubMain "10.0.0.0" "zz" "1" = (1, []) ∧
    ipSubMain "10.0.0.0" "24" "xyz" = (0, []) := by
  refine ⟨?_, by decide, by decide⟩
  unfold ipSubMain
  rw [h]

/-- Witness for C8 at the unparseable base string `bogus`. -/
theorem C8_witness :
    inet_pton4 "bogus" = none ∧
    (ipSubMain "bogus" "24" "1" = (1, []) ∧
    ipSubMain "10.0.0.0" "zz" "1" = (1, []) ∧
    ipSubMain "10.0.0.0" "24" "xyz" = (0, [])) :=
  ⟨by decide, C8_amended_parse_failures "bogus" "24" "1" (by decide)⟩

/-- Claim C9: the mid-loop `conversion failed` branches are unreachable — at the
buffer sizes both programs use, formatting a 32-bit value cannot fail — every
failing run produces no standard-output lines, and every validated run that
terminates exits with status 0 (both programs). -/
theorem C9_validated_runs_cannot_fail :
    (∀ v : Nat, inet_ntop4 v 16 = some (fmtIPv4 (v % W32)) ∧
      inet_ntop4 v 46 = some (fmtIPv4 (v % W32))) ∧
    (∀ fuel first last code : Nat, ∀ out : List String,
      ipIterRun fuel first last = some (code, out) → code ≠ 0 → out = []) ∧
    (∀ fuel first last : Nat, ∀ r : Nat × List String,
      first ≤ last → ipIterRun fuel first last = some r → r.1 = 0) ∧
    (∀ (base : Nat) (bits count : Int),
      (ipSubRun base bits count).1 ≠ 0 → (ipSubRun base bits count).2 = []) ∧
    (∀ (base : Nat) (bits count : Int), 8 ≤ bits → bits < 32 →
      base &&& 2 ^ (32 - bits.toNat) = 0 → (ipSubRun base bits count).1 = 0) ∧
    (∀ a1 a2 a3 : String, (ipSubMain a1 a2 a3).1 ≠ 0 → (ipSubMain a1 a2 a3).2 = []) := by
  have hsub : ∀ (base : Nat) (bits count : Int),
      (ipSubRun base bits count).1 ≠ 0 → (ipSubRun base bits count).2 = [] := by
    intro base bits count
    unfold ipSubRun
    split_ifs with hrange halign
    · intro _; rfl
    · intro _; rfl
    · rw [ipSubLoop_eq]
      intro hc
      exact absurd rfl hc
  refine ⟨fun v => ⟨inet_ntop4_sixteen v, inet_ntop4_fortysix v⟩, ?_, ?_, hsub, ?_, ?_⟩
  · intro fuel first last code out h hc
    unfold ipIterRun at h
    by_cases hgt : first > last
    · rw [if_pos hgt] at h
      simp only [Option.some.injEq, Prod.mk.injEq] at h
      exact h.2.symm
    · rw [if_neg hgt] at h
      exact absurd (ipIterLoop_code_zero fuel first last code out h) hc
  · intro fuel first last r hle h
    unfold ipIterRun at h
    rw [if_neg (by omega)] at h
    cases r with
    | mk code out => exact ipIterLoop_code_zero fuel first last code out h
  · intro base bits count h8 h32 hal
    rw [ipSubRun_valid base bits count h8 h32 hal]
  · intro a1 a2 a3
    unfold ipSubMain
    cases hp : inet_pton4 a1 with
    | none => intro _; rfl
    | some base => exact hsub base (atoi a2) (atoi a3)

/-- Claim C10: the bits argument is read with `atoi` semantics — `24xyz` is
treated as 24, so with an aligned base and positive count the program prints the
subnets and exits 0; only the `[8, 32)` range check constrains the value (`7abc`,
read as 7, is rejected). -/
theorem C10_atoi_accepts_digit_prefixed_bits :
    atoi "24xyz" = 24 ∧
    ipSubMain "10.0.0.0" "24xyz" "2" =
      (0, ["10.0.0.0 10.0.0.1 10.0.0.2", "10.0.1.0 10.0.1.1 10.0.1.2"]) ∧
    ipSubMain "10.0.0.0" "7abc" "1" = (1, []) ∧ atoi "7abc" = 7 := by decide

